import Mathlib

/-!
Verification development for the PBF decoder core of this libosmium snapshot.

The C++ sources embedded here are:
 * `src/include/osmium/io/detail/pbf_input_format.hpp` (framing, blob handling,
   primitive-block parsing),
 * `src/include/osmium/osm/object.hpp` (`Object::uid_from_signed`),
 * `src/include/osmium/io/detail/string_util.hpp` (UTF-8 helpers).

C++ machine integers are modelled as `Nat`/`Int` with explicit reductions
modulo powers of two where a narrowing or wrap-around conversion occurs in
the source.  Fallible code (protobuf repeated-field access out of range,
exceptions) is modelled with `Option`/`Except`.  The protobuf wire decoders
(`ParseFromArray` of the generated OSMPBF classes) are external generated
code and appear as function parameters of the embeddings that use them.

Constants from `osmium/io/detail/pbf.hpp`, `osmium/osm/location.hpp` and
`osmium/osm/types.hpp` are not among the source files of this snapshot; they
are modelled from the spec where needed (see the doc comments).
-/

set_option maxRecDepth 1000000

namespace Osmium

/-- Narrowing conversion of an unbounded integer to C++ `int32_t`
(two's complement wrap-around). -/
def toInt32 (x : Int) : Int :=
  (x + 2147483648) % 4294967296 - 2147483648

/-- Narrowing conversion of an unbounded integer to C++ `uint32_t`
(reduction modulo 2^32). -/
def toUInt32Wrap (x : Int) : Int :=
  x % 4294967296

/-- Conversion of an unbounded integer to the value of a C++ `uint64_t`
(reduction modulo 2^64); the result is the non-negative represented value. -/
def toUInt64Wrap (x : Int) : Nat :=
  (x % 18446744073709551616).toNat

/-- Reinterpretation of a `uint64_t` value as C++ `int64_t`
(two's complement). -/
def uint64AsInt64 (u : Nat) : Int :=
  if u < 9223372036854775808 then (u : Int) else (u : Int) - 18446744073709551616

/-- Modelled from the spec: `object_version_type` (`osmium/osm/types.hpp` is not
among the source files; the spec says "`version` (31-bit unsigned; stored packed
with `visible`)").  Assigning an `int32_t` protobuf value to the 31-bit
bit-field `m_version` reduces it modulo 2^32 (to `uint32_t`) and then modulo
2^31 (bit-field truncation), which is reduction modulo 2^31 overall. -/
def toVersion (x : Int) : Int :=
  x % 2147483648

/-- From `osmium::Object::uid_from_signed` (src/include/osmium/osm/object.hpp,
lines 271-274): sets uid to 0 (anonymous) if the given `int32_t` uid is smaller
than 0, otherwise stores it unchanged. -/
def uid_from_signed (uid : Int) : Int :=
  if uid < 0 then 0 else uid

/-- Modelled from the spec: `OSMPBF::max_blob_header_size`
(`osmium/io/detail/pbf.hpp` is not among the source files; the spec says
"Caps: blob header ≤ 32 KiB (2^15)"). -/
def max_blob_header_size : Nat := 32 * 1024

/-- Modelled from the spec: `OSMPBF::max_uncompressed_blob_size`
(`osmium/io/detail/pbf.hpp` is not among the source files; the spec says
"uncompressed blob payload ≤ 32 MiB (2^25)"). -/
def max_uncompressed_blob_size : Nat := 32 * 1024 * 1024

/-- Modelled from the spec: `OSMPBF::lonlat_resolution` = 10^9 nanodegrees per
degree (`osmium/io/detail/pbf.hpp` is not among the source files; the spec
gives the conversion `location_unit = (raw * granularity + offset) /
(10^9 / coordinate_precision)`). -/
def lonlat_resolution : Int := 1000 * 1000 * 1000

/-- Modelled from the spec: `osmium::Location::coordinate_precision` = 10^7
units per degree (`osmium/osm/location.hpp` is not among the source files; the
spec says "coordinate precision: library-wide fixed precision of 10^-7 degrees
per unit" and that a `Location` is a pair of 32-bit signed integers). -/
def coordinate_precision : Int := 10000000

/-- The divisor `OSMPBF::lonlat_resolution / osmium::Location::coordinate_precision`
used in `parse_node_group` and `parse_dense_node_group`; C++ `int64_t` division
truncates toward zero (`Int.tdiv`). -/
def location_divisor : Int := Int.tdiv lonlat_resolution coordinate_precision

/-- The scaling state of one `PBFPrimitiveBlockParser` after it has read the
`PrimitiveBlock` header fields (`operator()`, lines 122-126): the block's
string table, `m_lon_offset`, `m_lat_offset`,
`m_date_factor = date_granularity() / 1000` and `m_granularity`. -/
structure PBFBlockParams where
  stringtable : List String
  lon_offset : Int
  lat_offset : Int
  date_factor : Int
  granularity : Int
deriving DecidableEq

/-- The location computation of `parse_node_group` (lines 174-176) and
`parse_dense_node_group` (lines 352-354):
`(raw * m_granularity + m_offset) / (lonlat_resolution / coordinate_precision)`,
narrowed to the `int32_t` coordinates of `osmium::Location`. -/
def location_from (p : PBFBlockParams) (lon lat : Int) : Int × Int :=
  (toInt32 (Int.tdiv (lon * p.granularity + p.lon_offset) location_divisor),
   toInt32 (Int.tdiv (lat * p.granularity + p.lat_offset) location_divisor))

/-- `OSMPBF::StringTable::s(int)`: protobuf repeated-field access; an index
outside `[0, size)` fails the protobuf bound check, modelled as `none`. -/
def st_get (st : List String) (i : Int) : Option String :=
  if i < 0 then none else st[i.toNat]?

/-- The `ref` accumulator loop of `PBFPrimitiveBlockParser::parse_way_group`
(lines 214-221): `uint64_t ref = 0; ref += pbf_way.refs(i);` wraps modulo 2^64,
and each value is passed to `add_way_node`, whose parameter is the signed
64-bit `object_id_type`.  The argument is the current `uint64_t` value of
`ref`; the list of deltas is `pbf_way.refs`. -/
def parse_way_refs_go : List Int → Nat → List Int
  | [], _ => []
  | d :: ds, ref =>
    let r := toUInt64Wrap ((ref : Int) + d)
    uint64AsInt64 r :: parse_way_refs_go ds r

/-- The emitted way-node references of one `OSMPBF::Way` (lines 214-221). -/
def parse_way_refs (refs : List Int) : List Int :=
  parse_way_refs_go refs 0

/-- The `ref` accumulator loop of `PBFPrimitiveBlockParser::parse_relation_group`
(lines 258-265): `uint64_t ref = 0; ref += pbf_relation.memids(i);` wraps modulo
2^64, and each value is passed to `add_member` as the signed 64-bit member ref. -/
def parse_relation_memids_go : List Int → Nat → List Int
  | [], _ => []
  | d :: ds, ref =>
    let r := toUInt64Wrap ((ref : Int) + d)
    uint64AsInt64 r :: parse_relation_memids_go ds r

/-- The emitted member references of one `OSMPBF::Relation` (lines 258-265). -/
def parse_relation_memids (memids : List Int) : List Int :=
  parse_relation_memids_go memids 0

/-- From `PBFPrimitiveBlockParser::add_tags` (lines 279-304), restated on the
suffix `keys_vals.drop n` so that the recursion is structural: the source
indexes `dense.keys_vals` at `n` and `n+1` and loops at `n+2`.  A cursor at or
past the end of `keys_vals` returns `n` with no tags (no error); a `0` at the
cursor is consumed as the node's end-of-tags sentinel; otherwise (key, value)
index pairs are resolved against the string table until a `0` or the end of the
stream.  Reading a value index past the end of the stream, or resolving an
index outside the string table, fails (protobuf bound check), modelled `none`. -/
def add_tags_go (st : List String) : List Int → Nat → List (String × String) →
    Option (Nat × List (String × String))
  | [], n, acc => some (n, acc.reverse)
  | key :: rest, n, acc =>
    if key = 0 then some (n + 1, acc.reverse)
    else
      match rest with
      | [] => none
      | v :: rest2 =>
        match st_get st key, st_get st v with
        | some ks, some vs => add_tags_go st rest2 (n + 2) ((ks, vs) :: acc)
        | _, _ => none

/-- `add_tags(dense, n, builder)`: the new cursor position and the tags emitted
for one dense node. -/
def add_tags (st : List String) (kv : List Int) (n : Nat) :
    Option (Nat × List (String × String)) :=
  add_tags_go st (kv.drop n) n []

/-- The fields of one `OSMPBF::DenseInfo` message read by the parser. -/
structure DenseInfoMsg where
  version : List Int
  timestamp : List Int
  changeset : List Int
  uid : List Int
  user_sid : List Int
  visible : List Bool
deriving DecidableEq

/-- The fields of one `OSMPBF::DenseNodes` message read by the parser. -/
structure DenseNodesMsg where
  id : List Int
  lat : List Int
  lon : List Int
  denseinfo : Option DenseInfoMsg
  keys_vals : List Int
deriving DecidableEq

/-- One decoded OSM node as it is appended to the output buffer: the entity
header fields of `osmium::Object`/`osmium::Node`, the user name, the optional
location and the tag list.  `changeset` and `uid` are the 32-bit
`changeset_id_type`/`user_id_type` values, `version` the 31-bit version. -/
structure DecodedNode where
  id : Int
  version : Int
  changeset : Int
  timestamp : Int
  uid : Int
  user : String
  visible : Bool
  location : Option (Int × Int)
  tags : List (String × String)
deriving DecidableEq

/-- The loop state of `parse_dense_node_group` (lines 307-314): the seven
running `int64_t` accumulators, all initialized to 0, and the shared
`last_dense_tag` cursor into `keys_vals`. -/
structure DenseAcc where
  id : Int
  lat : Int
  lon : Int
  uid : Int
  user_sid : Int
  changeset : Int
  timestamp : Int
  tagPos : Nat
deriving DecidableEq

/-- The initial accumulator state (lines 307-314). -/
def denseAcc0 : DenseAcc := ⟨0, 0, 0, 0, 0, 0, 0, 0⟩

/-- One iteration of the `parse_dense_node_group` loop (lines 318-359) at index
`i`: add the deltas `id(i)`, `lat(i)`, `lon(i)` (and, when `DenseInfo` is
present, `changeset(i)`, `timestamp(i)`, `uid(i)`, `user_sid(i)`) to the
accumulators, read `version(i)` and (when the `visible` array is non-empty)
`visible(i)` absolutely, resolve the accumulated `user_sid` against the string
table, compute the location iff the node is visible, and consume tags from the
shared `keys_vals` cursor.  Without `DenseInfo` the node keeps the defaults of
a fresh `osmium::Object` (version 0, changeset 0, timestamp 0, uid 0, user "",
visible true).  Any out-of-range protobuf array access is `none`. -/
def dense_step (p : PBFBlockParams) (dense : DenseNodesMsg) (i : Nat)
    (acc : DenseAcc) : Option (DecodedNode × DenseAcc) :=
  match dense.id[i]?, dense.lat[i]?, dense.lon[i]? with
  | some did, some dlat, some dlon =>
    let acc1 : DenseAcc :=
      { acc with id := acc.id + did, lat := acc.lat + dlat, lon := acc.lon + dlon }
    match dense.denseinfo with
    | some info =>
      (match info.changeset[i]?, info.timestamp[i]?, info.uid[i]?, info.user_sid[i]? with
       | some dch, some dts, some duid, some dsid =>
         let acc2 : DenseAcc :=
           { acc1 with changeset := acc1.changeset + dch,
                       timestamp := acc1.timestamp + dts,
                       uid := acc1.uid + duid,
                       user_sid := acc1.user_sid + dsid }
         (match (if 0 < info.visible.length then info.visible[i]? else some true),
                info.version[i]?,
                st_get p.stringtable (toInt32 acc2.user_sid) with
          | some vis, some ver, some user =>
            (match add_tags p.stringtable dense.keys_vals acc2.tagPos with
             | some (tagPos2, tags) =>
               some ({ id := acc2.id,
                       version := toVersion ver,
                       changeset := toUInt32Wrap acc2.changeset,
                       timestamp := acc2.timestamp * p.date_factor,
                       uid := uid_from_signed (toInt32 acc2.uid),
                       user := user,
                       visible := vis,
                       location := if vis then some (location_from p acc2.lon acc2.lat) else none,
                       tags := tags },
                     { acc2 with tagPos := tagPos2 })
             | none => none)
          | _, _, _ => none)
       | _, _, _, _ => none)
    | none =>
      (match add_tags p.stringtable dense.keys_vals acc1.tagPos with
       | some (tagPos2, tags) =>
         some ({ id := acc1.id,
                 version := 0,
                 changeset := 0,
                 timestamp := 0,
                 uid := 0,
                 user := "",
                 visible := true,
                 location := some (location_from p acc1.lon acc1.lat),
                 tags := tags },
               { acc1 with tagPos := tagPos2 })
       | none => none)
  | _, _, _ => none

/-- The loop of `parse_dense_node_group` (`for (int i=0; i < dense.id_size(); ++i)`),
as a recursion on the number `r` of remaining iterations starting at index `i`. -/
def parse_dense_go (p : PBFBlockParams) (dense : DenseNodesMsg) :
    Nat → Nat → DenseAcc → Option (List DecodedNode)
  | _, 0, _ => some []
  | i, r + 1, acc =>
    match dense_step p dense i acc with
    | none => none
    | some (node, acc2) =>
      match parse_dense_go p dense (i + 1) r acc2 with
      | none => none
      | some rest => some (node :: rest)

/-- From `PBFPrimitiveBlockParser::parse_dense_node_group` (lines 306-360):
the sequence of nodes emitted for one dense-node group. -/
def parse_dense_node_group (p : PBFBlockParams) (dense : DenseNodesMsg) :
    Option (List DecodedNode) :=
  parse_dense_go p dense 0 dense.id.length denseAcc0

/-- The fields of one `OSMPBF::Info` message read by the parser. -/
structure InfoMsg where
  version : Int
  changeset : Int
  timestamp : Int
  uid : Int
  user_sid : Int
  visible : Option Bool
deriving DecidableEq

/-- The fields of one plain `OSMPBF::Node` message read by the parser. -/
structure NodeMsg where
  id : Int
  lat : Int
  lon : Int
  keys : List Int
  vals : List Int
  info : Option InfoMsg
deriving DecidableEq

/-- The tag loops of `parse_node_group` / `parse_way_group` /
`parse_relation_group`: for each index into `keys`, resolve `keys(i)` and
`vals(i)` against the string table.  A `vals` array shorter than `keys`, or an
index outside the string table, fails the protobuf bound check (`none`). -/
def resolve_tags (st : List String) : List Int → List Int →
    Option (List (String × String))
  | [], _ => some []
  | k :: ks, vs =>
    match vs with
    | [] => none
    | v :: vs2 =>
      match st_get st k, st_get st v with
      | some ksr, some vsr =>
        (match resolve_tags st ks vs2 with
         | some rest => some ((ksr, vsr) :: rest)
         | none => none)
      | _, _ => none

/-- From `PBFPrimitiveBlockParser::parse_node_group` (lines 149-189): decoding
of one plain `OSMPBF::Node`.  With `Info` present the header fields come from
`Info` (`visible` defaults to true when the field is absent); without `Info`
the defaults of a fresh `osmium::Object` remain and the user name is "".  The
location is computed iff the node is visible. -/
def parse_node (p : PBFBlockParams) (msg : NodeMsg) : Option DecodedNode :=
  match msg.info with
  | some info =>
    (match st_get p.stringtable (toInt32 info.user_sid) with
     | none => none
     | some user =>
       (match resolve_tags p.stringtable msg.keys msg.vals with
        | none => none
        | some tags =>
          let visible := info.visible.getD true
          some { id := msg.id,
                 version := toVersion info.version,
                 changeset := toUInt32Wrap info.changeset,
                 timestamp := info.timestamp * p.date_factor,
                 uid := uid_from_signed info.uid,
                 user := user,
                 visible := visible,
                 location := if visible then some (location_from p msg.lon msg.lat) else none,
                 tags := tags }))
  | none =>
    (match resolve_tags p.stringtable msg.keys msg.vals with
     | none => none
     | some tags =>
       some { id := msg.id,
              version := 0,
              changeset := 0,
              timestamp := 0,
              uid := 0,
              user := "",
              visible := true,
              location := some (location_from p msg.lon msg.lat),
              tags := tags })

/-- The fields of one `OSMPBF::Blob` message read by the parser.  Payloads are
byte lists; `raw_size` is the protobuf `int32` field (0 when unset, as
`pbf_blob.raw_size()` returns the proto2 default). -/
structure BlobMsg where
  raw : Option (List Nat)
  raw_size : Option Int
  zlib_data : Option (List Nat)
  lzma_data : Option (List Nat)
deriving DecidableEq

/-- An `OSMPBF::Blob` with none of its fields set: the message that
`ParseFromArray` yields on an empty byte sequence. -/
def emptyBlobMsg : BlobMsg := ⟨none, none, none, none⟩

/-- Modelled from the spec: `osmium::io::detail::zlib_uncompress` lives in
`osmium/io/detail/zlib.hpp`, which is not among the source files; the spec
says "`zlib_data`: inflate to exactly `raw_size` bytes; fail if inflation
produces more or fewer bytes."  The raw zlib inflation is an external library,
passed as the function `inflate` (`none` = inflation failure). -/
def zlib_uncompress (inflate : List Nat → Option (List Nat)) (input : List Nat)
    (raw_size : Nat) : Except String (List Nat) :=
  match inflate input with
  | none => Except.error ("failed to uncompress data")
  | some out =>
    if out.length = raw_size then Except.ok out
    else Except.error ("failed to uncompress data")

/-- From `BlobParser::operator()` / `BlobParser::doit` (lines 421-463): dispatch
on which payload field of the decoded `Blob` is set.  `raw` passes through;
`zlib_data` is inflated to `raw_size` bytes (the `int32` value converted to
`unsigned long`), after the `assert(raw_size <= max_uncompressed_blob_size)`,
modelled as a failure when violated; `lzma_data` and an empty blob are errors. -/
def blob_decode (inflate : List Nat → Option (List Nat)) (blob : BlobMsg) :
    Except String (List Nat) :=
  match blob.raw with
  | some data => Except.ok data
  | none =>
    match blob.zlib_data with
    | some z =>
      let raw_size : Nat := toUInt64Wrap (blob.raw_size.getD 0)
      if raw_size ≤ max_uncompressed_blob_size then zlib_uncompress inflate z raw_size
      else Except.error ("assertion failed: raw_size <= OSMPBF::max_uncompressed_blob_size")
    | none =>
      match blob.lzma_data with
      | some _ => Except.error ("lzma blobs not implemented")
      | none => Except.error ("Blob contains no data")

/-- The fields of one `OSMPBF::BlobHeader` message read by the parser. -/
structure BlobHeaderMsg where
  type : String
  datasize : Int
deriving DecidableEq

/-- From `PBFInputFormat::read_blob_header` (lines 574-600), over a byte stream:
read 4 bytes as a big-endian `uint32_t` length (EOF here returns datasize 0, it
is not an error), check it against `max_blob_header_size`, read that many bytes
(EOF here is "Read error."), decode them as a `BlobHeader` (the external
protobuf decoder is the parameter `parseBH`), check the expected type, and
return the header's `datasize` together with the unconsumed stream. -/
def read_blob_header (parseBH : List Nat → Option BlobHeaderMsg)
    (expected : String) (stream : List Nat) : Except String (Int × List Nat) :=
  match stream with
  | b0 :: b1 :: b2 :: b3 :: rest =>
    let size : Nat := b0 * 16777216 + b1 * 65536 + b2 * 256 + b3
    if size > max_blob_header_size then Except.error ("Invalid BlobHeader size")
    else if rest.length < size then Except.error ("Read error.")
    else
      match parseBH (rest.take size) with
      | none => Except.error ("Failed to parse BlobHeader.")
      | some bh =>
        if bh.type = expected then Except.ok (bh.datasize, rest.drop size)
        else Except.error ("Blob does not have expected type (OSMHeader in first Blob, OSMData in following Blobs).")
  | _ => Except.ok (0, stream)

/-- From `BlobParser::BlobParser` (lines 403-417): the constructor validates the
blob size against `OSMPBF::max_uncompressed_blob_size` ("invalid blob size")
and reads `size` bytes from the input (EOF here is "read error (EOF)"). -/
def blob_parser_read (size : Int) (stream : List Nat) :
    Except String (List Nat × List Nat) :=
  if size < 0 ∨ (max_uncompressed_blob_size : Int) < size then
    Except.error ("invalid blob size: " ++ toString size)
  else if stream.length < size.toNat then Except.error ("read error (EOF)")
  else Except.ok (stream.take size.toNat, stream.drop size.toNat)

/-- The fields of one `OSMPBF::HeaderBlock` message used by the required-feature
scan and generator copy of `HeaderBlobParser::handle_blob` (the bbox and
osmosis-replication metadata copies of lines 499-518 only set further header
metadata strings and are not modelled). -/
structure HeaderBlockMsg where
  required_features : List String
  writingprogram : Option String
deriving DecidableEq

/-- The header metadata record populated by `HeaderBlobParser::handle_blob`:
the "pbf_dense_nodes" option, the "multiple object versions" flag, and the
"generator" option. -/
structure HeaderFlags where
  pbf_dense_nodes : Bool
  has_multiple_object_versions : Bool
  generator : Option String
deriving DecidableEq

/-- A fresh header metadata record. -/
def flags0 : HeaderFlags := ⟨false, false, none⟩

/-- The required-features loop of `HeaderBlobParser::handle_blob` (lines
477-493): "OsmSchema-V0.6" is skipped, "DenseNodes" sets `pbf_dense_nodes`,
"HistoricalInformation" sets `has_multiple_object_versions`, and any other
feature throws "Required feature not supported: <feature>". -/
def scan_required_features : List String → HeaderFlags → Except String HeaderFlags
  | [], h => Except.ok h
  | feature :: rest, h =>
    if feature = "OsmSchema-V0.6" then scan_required_features rest h
    else if feature = "DenseNodes" then
      scan_required_features rest { h with pbf_dense_nodes := true }
    else if feature = "HistoricalInformation" then
      scan_required_features rest { h with has_multiple_object_versions := true }
    else Except.error ("Required feature not supported: " ++ feature)

/-- From `HeaderBlobParser::handle_blob` (lines 471-519): decode the payload as
a `HeaderBlock` (external protobuf decoder `parseHB`), run the required-feature
scan, and copy `writingprogram` to the "generator" metadata entry. -/
def handle_header_block (parseHB : List Nat → Option HeaderBlockMsg)
    (data : List Nat) (h : HeaderFlags) : Except String HeaderFlags :=
  match parseHB data with
  | none => Except.error ("Failed to parse HeaderBlock.")
  | some hb =>
    match scan_required_features hb.required_features h with
    | Except.error e => Except.error e
    | Except.ok h1 =>
      match hb.writingprogram with
      | some wp => Except.ok { h1 with generator := some wp }
      | none => Except.ok h1

/-- From `PBFInputFormat::open` (lines 662-675), header part: read the first
blob header expecting "OSMHeader", construct a `HeaderBlobParser` (which
validates the size and reads the blob bytes), decode the `Blob` message
(external protobuf decoder `parseBlob`), decompress/extract its payload, and
ingest the `HeaderBlock`.  The reader-thread start for the data blobs is
outside this embedding. -/
def pbf_open (parseBH : List Nat → Option BlobHeaderMsg)
    (parseBlob : List Nat → Option BlobMsg)
    (parseHB : List Nat → Option HeaderBlockMsg)
    (inflate : List Nat → Option (List Nat))
    (stream : List Nat) (h0 : HeaderFlags) : Except String HeaderFlags :=
  match read_blob_header parseBH ("OSMHeader") stream with
  | Except.error e => Except.error e
  | Except.ok (size, rest) =>
    match blob_parser_read size rest with
    | Except.error e => Except.error e
    | Except.ok (blobBytes, _) =>
      match parseBlob blobBytes with
      | none => Except.error ("failed to parse blob")
      | some blob =>
        match blob_decode inflate blob with
        | Except.error e => Except.error e
        | Except.ok data => handle_header_block parseHB data h0

/-- From `utf8_sequence_length` (src/include/osmium/io/detail/string_util.hpp,
lines 125-143): classify a leading byte as starting a 1-4 byte UTF-8 sequence,
or 0 when it is not a valid leading byte. -/
def utf8_sequence_length (first : Nat) : Nat :=
  if first < 0x80 then 1
  else if first >>> 5 = 0x6 then 2
  else if first >>> 4 = 0xe then 3
  else if first >>> 3 = 0x1e then 4
  else 0

/-- From `next_utf8_codepoint` (src/include/osmium/io/detail/string_util.hpp,
lines 145-182), over the byte range `[*begin, end)` given as a list: decode one
codepoint and return it together with the number of bytes consumed (the source
advances `*begin` by that amount).  An invalid leading byte throws "invalid
Unicode codepoint"; a sequence extending past `end` throws "incomplete Unicode
codepoint".  The source is never called on an empty range (its callers loop
while `data != end_ptr`); the empty list is mapped to the out-of-range error. -/
def next_utf8_codepoint (s : List Nat) : Except String (Nat × Nat) :=
  match s with
  | [] => Except.error ("incomplete Unicode codepoint")
  | b0 :: rest =>
    let cp0 := 0xff &&& b0
    match utf8_sequence_length cp0 with
    | 1 => Except.ok (cp0, 1)
    | 2 =>
      (match rest with
       | b1 :: _ => Except.ok (((cp0 <<< 6) &&& 0x7ff) + (b1 &&& 0x3f), 2)
       | _ => Except.error ("incomplete Unicode codepoint"))
    | 3 =>
      (match rest with
       | b1 :: b2 :: _ =>
         Except.ok ((((cp0 <<< 12) &&& 0xffff) + (((0xff &&& b1) <<< 6) &&& 0xfff))
                    + (b2 &&& 0x3f), 3)
       | _ => Except.error ("incomplete Unicode codepoint"))
    | 4 =>
      (match rest with
       | b1 :: b2 :: b3 :: _ =>
         Except.ok (((((cp0 <<< 18) &&& 0x1fffff) + (((0xff &&& b1) <<< 12) &&& 0x3ffff))
                     + (((0xff &&& b2) <<< 6) &&& 0xfff)) + (b3 &&& 0x3f), 4)
       | _ => Except.error ("incomplete Unicode codepoint"))
    | _ => Except.error ("invalid Unicode codepoint")

/-- From `append_codepoint_as_utf8` (src/include/osmium/io/detail/string_util.hpp,
lines 286-304): encode one codepoint as 1-4 UTF-8 bytes; each
`static_cast<char>` truncates the computed value modulo 2^8. -/
def append_codepoint_as_utf8 (cp : Nat) : List Nat :=
  if cp < 0x80 then [cp % 256]
  else if cp < 0x800 then
    [((cp >>> 6) ||| 0xc0) % 256,
     ((cp &&& 0x3f) ||| 0x80) % 256]
  else if cp < 0x10000 then
    [((cp >>> 12) ||| 0xe0) % 256,
     (((cp >>> 6) &&& 0x3f) ||| 0x80) % 256,
     ((cp &&& 0x3f) ||| 0x80) % 256]
  else
    [((cp >>> 18) ||| 0xf0) % 256,
     (((cp >>> 12) &&& 0x3f) ||| 0x80) % 256,
     (((cp >>> 6) &&& 0x3f) ||| 0x80) % 256,
     ((cp &&& 0x3f) ||| 0x80) % 256]

/-- A byte list that is a single valid shortest-form UTF-8 sequence encoding a
Unicode codepoint (RFC 3629 byte ranges, surrogates admitted since the source
decoder does not treat them specially): 1-4 bytes as classified by the leading
byte, continuation bytes in `[0x80, 0xbf]`, no overlong form (`b0 ≥ 0xc2` for
2 bytes, `b1 ≥ 0xa0` under `b0 = 0xe0`, `b1 ≥ 0x90` under `b0 = 0xf0`) and no
value beyond U+10FFFF (`b0 ≤ 0xf4`, `b1 ≤ 0x8f` under `b0 = 0xf4`). -/
def isShortestFormUtf8 (s : List Nat) : Bool :=
  match s with
  | [b0] => b0 < 0x80
  | [b0, b1] =>
    0xc2 ≤ b0 && b0 ≤ 0xdf && 0x80 ≤ b1 && b1 ≤ 0xbf
  | [b0, b1, b2] =>
    0xe0 ≤ b0 && b0 ≤ 0xef && 0x80 ≤ b1 && b1 ≤ 0xbf && 0x80 ≤ b2 && b2 ≤ 0xbf &&
    (b0 ≠ 0xe0 || 0xa0 ≤ b1)
  | [b0, b1, b2, b3] =>
    0xf0 ≤ b0 && b0 ≤ 0xf4 && 0x80 ≤ b1 && b1 ≤ 0xbf && 0x80 ≤ b2 && b2 ≤ 0xbf &&
    0x80 ≤ b3 && b3 ≤ 0xbf &&
    (b0 ≠ 0xf0 || 0x90 ≤ b1) && (b0 ≠ 0xf4 || b1 ≤ 0x8f)
  | _ => false

end Osmium

deriving instance DecidableEq for Except

namespace Osmium

/-- Sum of the `k`-element slice of `xs` starting at index `a`; the value a
delta-coded accumulator gains between loop index `a` and loop index `a + k`. -/
def sliceSum (xs : List Int) (a k : Nat) : Int :=
  ((xs.drop a).take k).sum

/-- Big-endian 4-byte encoding of a 32-bit length, as written before each
`BlobHeader` (network byte order, decoded by `ntohl` in `read_blob_header`). -/
def be32 (n : Nat) : List Nat :=
  [n / 16777216 % 256, n / 65536 % 256, n / 256 % 256, n % 256]

/-- The block parameters of the spec's "single dense-node blob" scenario:
granularity 100, offsets 0, default date factor, empty string table. -/
def exParams1 : PBFBlockParams := ⟨[], 0, 0, 1, 100⟩

/-- The dense-node group of the spec's "single dense-node blob" scenario:
3 dense nodes with deltas id = [1,1,1], lat = [100,0,-50], lon = [200,0,0],
no `DenseInfo`, empty `keys_vals`. -/
def exDense1 : DenseNodesMsg := ⟨[1, 1, 1], [100, 0, -50], [200, 0, 0], none, []⟩

/-- The nodes the parser emits for `exDense1` under `exParams1`. -/
def exNodes1 : List DecodedNode :=
  [⟨1, 0, 0, 0, 0, "", true, some (200, 100), []⟩,
   ⟨2, 0, 0, 0, 0, "", true, some (200, 100), []⟩,
   ⟨3, 0, 0, 0, 0, "", true, some (200, 50), []⟩]

/-- A dense-node group whose `keys_vals` stream is misaligned with the id
count: 3 nodes (id deltas [5,1,1]) but only one 0 sentinel in `keys_vals`. -/
def exDense2 : DenseNodesMsg := ⟨[5, 1, 1], [0, 0, 0], [0, 0, 0], none, [0]⟩

/-- The nodes the parser emits for `exDense2` under `exParams1`. -/
def exNodes2 : List DecodedNode :=
  [⟨5, 0, 0, 0, 0, "", true, some (0, 0), []⟩,
   ⟨6, 0, 0, 0, 0, "", true, some (0, 0), []⟩,
   ⟨7, 0, 0, 0, 0, "", true, some (0, 0), []⟩]

/-- Block parameters with a one-entry string table (the empty user name at
index 0). -/
def exParams2 : PBFBlockParams := ⟨[""], 0, 0, 1, 100⟩

/-- A plain node message whose `Info` carries the negative wire uid -4. -/
def exNodeMsg3 : NodeMsg := ⟨42, 7, 9, [], [], some ⟨3, 8, 55, -4, 0, none⟩⟩

/-- The node the parser emits for `exNodeMsg3` under `exParams2`: the uid is
normalized from -4 to 0. -/
def exNode3 : DecodedNode := ⟨42, 3, 8, 55, 0, "", true, some (9, 7), []⟩

theorem toUInt64Wrap_add (s d : Int) :
    toUInt64Wrap ((toUInt64Wrap s : Int) + d) = toUInt64Wrap (s + d) := by
  unfold toUInt64Wrap
  have h0 : (0 : Int) ≤ s % 18446744073709551616 := Int.emod_nonneg s (by norm_num)
  rw [Int.toNat_of_nonneg h0]
  omega

theorem uint64AsInt64_toUInt64Wrap (s : Int)
    (h1 : -9223372036854775808 ≤ s) (h2 : s < 9223372036854775808) :
    uint64AsInt64 (toUInt64Wrap s) = s := by
  unfold uint64AsInt64 toUInt64Wrap
  split_ifs with h
  · omega
  · omega

theorem parse_way_refs_go_spec (ds : List Int) : ∀ (s : Int) (k : Nat), k < ds.length →
    (parse_way_refs_go ds (toUInt64Wrap s))[k]? =
      some (uint64AsInt64 (toUInt64Wrap (s + (ds.take (k + 1)).sum))) := by
  induction ds with
  | nil => intro s k hk; simp at hk
  | cons d ds ih =>
    intro s k hk
    simp only [parse_way_refs_go, toUInt64Wrap_add]
    cases k with
    | zero => simp
    | succ k =>
      rw [List.getElem?_cons_succ]
      rw [ih (s + d) k (by simpa using hk)]
      have e2 : s + ((d :: ds).take (k + 1 + 1)).sum = s + d + (ds.take (k + 1)).sum := by
        rw [List.take_succ_cons, List.sum_cons]; ring
      rw [e2]

theorem parse_way_refs_go_length (ds : List Int) : ∀ (r : Nat),
    (parse_way_refs_go ds r).length = ds.length := by
  induction ds with
  | nil => intro r; simp [parse_way_refs_go]
  | cons d ds ih => intro r; simp [parse_way_refs_go, ih]

theorem parse_relation_memids_go_spec (ds : List Int) : ∀ (s : Int) (k : Nat),
    k < ds.length →
    (parse_relation_memids_go ds (toUInt64Wrap s))[k]? =
      some (uint64AsInt64 (toUInt64Wrap (s + (ds.take (k + 1)).sum))) := by
  induction ds with
  | nil => intro s k hk; simp at hk
  | cons d ds ih =>
    intro s k hk
    simp only [parse_relation_memids_go, toUInt64Wrap_add]
    cases k with
    | zero => simp
    | succ k =>
      rw [List.getElem?_cons_succ]
      rw [ih (s + d) k (by simpa using hk)]
      have e2 : s + ((d :: ds).take (k + 1 + 1)).sum = s + d + (ds.take (k + 1)).sum := by
        rw [List.take_succ_cons, List.sum_cons]; ring
      rw [e2]

theorem parse_relation_memids_go_length (ds : List Int) : ∀ (r : Nat),
    (parse_relation_memids_go ds r).length = ds.length := by
  induction ds with
  | nil => intro r; simp [parse_relation_memids_go]
  | cons d ds ih => intro r; simp [parse_relation_memids_go, ih]

/-- C2: For every PBF Way, the emitted node references are the running sums of
the delta-coded refs stream: whenever all prefix sums are representable in a
signed 64-bit integer, the k-th emitted reference equals the sum of the first
k+1 deltas. -/
theorem C2_way_refs_running_sums (refs : List Int)
    (h : ∀ k, k < refs.length →
      -9223372036854775808 ≤ (refs.take (k + 1)).sum ∧
      (refs.take (k + 1)).sum < 9223372036854775808) :
    ∀ k, k < refs.length → (parse_way_refs refs)[k]? = some ((refs.take (k + 1)).sum) := by
  intro k hk
  unfold parse_way_refs
  have e : toUInt64Wrap 0 = 0 := by decide
  rw [← e, parse_way_refs_go_spec refs 0 k hk, zero_add]
  exact congrArg some (uint64AsInt64_toUInt64Wrap _ (h k hk).1 (h k hk).2)

/-- C2 witness: the way with refs deltas [10, -3, 5] decodes to references
[10, 7, 12]. -/
theorem C2_way_refs_running_sums_witness :
    (parse_way_refs [10, -3, 5])[0]? = some 10 ∧
    (parse_way_refs [10, -3, 5])[1]? = some 7 ∧
    (parse_way_refs [10, -3, 5])[2]? = some 12 := by
  have h0 := C2_way_refs_running_sums [10, -3, 5] (by decide) 0 (by decide)
  have h1 := C2_way_refs_running_sums [10, -3, 5] (by decide) 1 (by decide)
  have h2 := C2_way_refs_running_sums [10, -3, 5] (by decide) 2 (by decide)
  refine ⟨?_, ?_, ?_⟩
  · rw [h0]; decide
  · rw [h1]; decide
  · rw [h2]; decide

/-- C8 counterexample: an overflowing way-ref accumulator is not a fatal decode
error; the `uint64_t` accumulator silently wraps, so the way with refs deltas
[2^63 - 1, 1] decodes (successfully) to [2^63 - 1, -2^63], and the second
emitted reference is not the true sum 2^63. -/
theorem C8_way_ref_overflow_counterexample :
    parse_way_refs [9223372036854775807, 1] =
      [9223372036854775807, -9223372036854775808] ∧
    (-9223372036854775808 : Int) ≠ 9223372036854775807 + 1 := by
  exact ⟨by decide, by decide⟩

/-- C8 (amended): the way-ref and relation-memid accumulators are C++
`uint64_t` values: decoding always succeeds (one output per delta, no overflow
check), and the k-th emitted reference is the sum of the first k+1 deltas
reduced modulo 2^64 and reinterpreted as a signed 64-bit value.  (The dense
accumulators are `int64_t`, on which the source likewise performs no overflow
check.) -/
theorem C8_accumulator_wrapping (refs memids : List Int) :
    (parse_way_refs refs).length = refs.length ∧
    (parse_relation_memids memids).length = memids.length ∧
    (∀ k, k < refs.length →
      (parse_way_refs refs)[k]? =
        some (uint64AsInt64 (toUInt64Wrap ((refs.take (k + 1)).sum)))) ∧
    (∀ k, k < memids.length →
      (parse_relation_memids memids)[k]? =
        some (uint64AsInt64 (toUInt64Wrap ((memids.take (k + 1)).sum)))) := by
  have e : toUInt64Wrap 0 = 0 := by decide
  refine ⟨parse_way_refs_go_length refs 0, parse_relation_memids_go_length memids 0, ?_, ?_⟩
  · intro k hk
    unfold parse_way_refs
    rw [← e, parse_way_refs_go_spec refs 0 k hk, zero_add]
  · intro k hk
    unfold parse_relation_memids
    rw [← e, parse_relation_memids_go_spec memids 0 k hk, zero_add]

/-- C8 witness: concrete instances of the wrapped-accumulator law. -/
theorem C8_accumulator_wrapping_witness :
    (parse_way_refs [3, 4]).length = 2 ∧
    (parse_relation_memids [5, 10, -3]).length = 3 ∧
    (parse_way_refs [3, 4])[1]? =
      some (uint64AsInt64 (toUInt64Wrap ((([3, 4] : List Int).take 2).sum))) ∧
    (parse_relation_memids [5, 10, -3])[2]? =
      some (uint64AsInt64 (toUInt64Wrap ((([5, 10, -3] : List Int).take 3).sum))) := by
  obtain ⟨h1, h2, h3, h4⟩ := C8_accumulator_wrapping [3, 4] [5, 10, -3]
  exact ⟨h1.trans (by decide), h2.trans (by decide), h3 1 (by decide), h4 2 (by decide)⟩

theorem dense_step_spec (p : PBFBlockParams) (dense : DenseNodesMsg) (i : Nat)
    (acc : DenseAcc) (node : DecodedNode) (acc2 : DenseAcc)
    (h : dense_step p dense i acc = some (node, acc2)) :
    ∃ did dlat dlon,
      dense.id[i]? = some did ∧ dense.lat[i]? = some dlat ∧ dense.lon[i]? = some dlon ∧
      acc2.id = acc.id + did ∧ acc2.lat = acc.lat + dlat ∧ acc2.lon = acc.lon + dlon ∧
      node.id = acc2.id ∧
      node.location = (if node.visible then some (location_from p acc2.lon acc2.lat) else none) ∧
      (∀ info, dense.denseinfo = some info →
        ∃ dch dts duid dsid,
          info.changeset[i]? = some dch ∧ info.timestamp[i]? = some dts ∧
          info.uid[i]? = some duid ∧ info.user_sid[i]? = some dsid ∧
          acc2.changeset = acc.changeset + dch ∧ acc2.timestamp = acc.timestamp + dts ∧
          acc2.uid = acc.uid + duid ∧ acc2.user_sid = acc.user_sid + dsid ∧
          node.changeset = toUInt32Wrap acc2.changeset ∧
          node.timestamp = acc2.timestamp * p.date_factor ∧
          node.uid = uid_from_signed (toInt32 acc2.uid) ∧
          st_get p.stringtable (toInt32 acc2.user_sid) = some node.user ∧
          ∃ ver, info.version[i]? = some ver ∧ node.version = toVersion ver) ∧
      (dense.denseinfo = none →
        acc2.changeset = acc.changeset ∧ acc2.timestamp = acc.timestamp ∧
        acc2.uid = acc.uid ∧ acc2.user_sid = acc.user_sid ∧
        node.version = 0 ∧ node.changeset = 0 ∧ node.timestamp = 0 ∧ node.uid = 0 ∧
        node.user = "" ∧ node.visible = true) := by
  unfold dense_step at h
  cases hid : dense.id[i]? with
  | none => rw [hid] at h; simp at h
  | some did =>
  cases hlat : dense.lat[i]? with
  | none => rw [hid, hlat] at h; simp at h
  | some dlat =>
  cases hlon : dense.lon[i]? with
  | none => rw [hid, hlat, hlon] at h; simp at h
  | some dlon =>
  rw [hid, hlat, hlon] at h
  simp only [] at h
  cases hinfo : dense.denseinfo with
  | some info =>
    rw [hinfo] at h
    simp only [] at h
    cases hch : info.changeset[i]? with
    | none => rw [hch] at h; simp at h
    | some dch =>
    cases hts : info.timestamp[i]? with
    | none => rw [hch, hts] at h; simp at h
    | some dts =>
    cases huid : info.uid[i]? with
    | none => rw [hch, hts, huid] at h; simp at h
    | some duid =>
    cases hsid : info.user_sid[i]? with
    | none => rw [hch, hts, huid, hsid] at h; simp at h
    | some dsid =>
    rw [hch, hts, huid, hsid] at h
    simp only [] at h
    cases hvis : (if 0 < info.visible.length then info.visible[i]? else some true) with
    | none => rw [hvis] at h; simp at h
    | some vis =>
    cases hver : info.version[i]? with
    | none => rw [hvis, hver] at h; simp at h
    | some ver =>
    cases huser : st_get p.stringtable (toInt32 (acc.user_sid + dsid)) with
    | none => rw [hvis, hver, huser] at h; simp at h
    | some user =>
    rw [hvis, hver, huser] at h
    simp only [] at h
    cases htags : add_tags p.stringtable dense.keys_vals acc.tagPos with
    | none => rw [htags] at h; simp at h
    | some pr =>
    obtain ⟨tagPos2, tags⟩ := pr
    rw [htags] at h
    simp only [Option.some_inj, Prod.mk.injEq] at h
    obtain ⟨hnode, hacc⟩ := h
    subst hnode
    subst hacc
    refine ⟨did, dlat, dlon, rfl, rfl, rfl, rfl, rfl, rfl, rfl, rfl, ?_, ?_⟩
    · intro info2 hinfo2
      injection hinfo2 with hinfo3
      subst hinfo3
      exact ⟨dch, dts, duid, dsid, hch, hts, huid, hsid, rfl, rfl, rfl, rfl, rfl, rfl, rfl,
        huser, ver, hver, rfl⟩
    · intro hcontra
      exact Option.noConfusion hcontra
  | none =>
    rw [hinfo] at h
    simp only [] at h
    cases htags : add_tags p.stringtable dense.keys_vals acc.tagPos with
    | none => rw [htags] at h; simp at h
    | some pr =>
    obtain ⟨tagPos2, tags⟩ := pr
    rw [htags] at h
    simp only [Option.some_inj, Prod.mk.injEq] at h
    obtain ⟨hnode, hacc⟩ := h
    subst hnode
    subst hacc
    refine ⟨did, dlat, dlon, rfl, rfl, rfl, rfl, rfl, rfl, rfl, rfl, ?_, ?_⟩
    · intro info2 hinfo2
      exact Option.noConfusion hinfo2
    · intro _
      exact ⟨rfl, rfl, rfl, rfl, rfl, rfl, rfl, rfl, rfl, rfl⟩

theorem sliceSum_zero (xs : List Int) (a : Nat) : sliceSum xs a 0 = 0 := by
  simp [sliceSum]

theorem sliceSum_succ (xs : List Int) (a k : Nat) (d : Int) (h : xs[a]? = some d) :
    sliceSum xs a (k + 1) = d + sliceSum xs (a + 1) k := by
  unfold sliceSum
  obtain ⟨ha, hget⟩ := List.getElem?_eq_some.mp h
  rw [List.drop_eq_getElem_cons ha, List.take_succ_cons, List.sum_cons, hget]

theorem parse_dense_go_spec (p : PBFBlockParams) (dense : DenseNodesMsg) :
    ∀ (r i : Nat) (acc : DenseAcc) (nodes : List DecodedNode),
      parse_dense_go p dense i r acc = some nodes →
      nodes.length = r ∧
      ∀ j, j < r → ∃ node, nodes[j]? = some node ∧
        node.id = acc.id + sliceSum dense.id i (j + 1) ∧
        node.location = (if node.visible then
            some (location_from p (acc.lon + sliceSum dense.lon i (j + 1))
                                  (acc.lat + sliceSum dense.lat i (j + 1)))
          else none) ∧
        (∀ info, dense.denseinfo = some info →
          node.changeset = toUInt32Wrap (acc.changeset + sliceSum info.changeset i (j + 1)) ∧
          node.timestamp = (acc.timestamp + sliceSum info.timestamp i (j + 1)) * p.date_factor ∧
          node.uid = uid_from_signed (toInt32 (acc.uid + sliceSum info.uid i (j + 1))) ∧
          st_get p.stringtable (toInt32 (acc.user_sid + sliceSum info.user_sid i (j + 1)))
            = some node.user ∧
          ∃ ver, info.version[i + j]? = some ver ∧ node.version = toVersion ver) ∧
        (dense.denseinfo = none →
          node.version = 0 ∧ node.changeset = 0 ∧ node.timestamp = 0 ∧ node.uid = 0 ∧
          node.user = "" ∧ node.visible = true) := by
  intro r
  induction r with
  | zero =>
    intro i acc nodes h
    simp only [parse_dense_go, Option.some_inj] at h
    subst h
    exact ⟨rfl, fun j hj => absurd hj (by omega)⟩
  | succ r ih =>
    intro i acc nodes h
    simp only [parse_dense_go] at h
    cases hs : dense_step p dense i acc with
    | none => rw [hs] at h; simp at h
    | some pr =>
      obtain ⟨node0, accN⟩ := pr
      rw [hs] at h
      simp only [] at h
      cases hrec : parse_dense_go p dense (i + 1) r accN with
      | none => rw [hrec] at h; simp at h
      | some rest =>
        rw [hrec] at h
        simp only [Option.some_inj] at h
        subst h
        obtain ⟨hlen, hrest⟩ := ih (i + 1) accN rest hrec
        obtain ⟨did, dlat, dlon, hid, hlat, hlon, haccid, hacclat, hacclon,
          hnid, hnloc, hinfoC, hnoneC⟩ := dense_step_spec p dense i acc node0 accN hs
        constructor
        · simp [hlen]
        · intro j hj
          cases j with
          | zero =>
            refine ⟨node0, by simp, ?_, ?_, ?_, fun hn => (hnoneC hn).2.2.2.2⟩
            · rw [hnid, haccid, sliceSum_succ dense.id i 0 did hid, sliceSum_zero, add_zero]
            · rw [hnloc, hacclon, hacclat, sliceSum_succ dense.lon i 0 dlon hlon,
                  sliceSum_succ dense.lat i 0 dlat hlat, sliceSum_zero, sliceSum_zero,
                  add_zero, add_zero]
            · intro info hi
              obtain ⟨dch, dts, duid, dsid, hch, hts, huid, hsid, hacs, hats, haus, hass,
                hnch, hnts, hnuid, hnuser, ver, hver, hnver⟩ := hinfoC info hi
              refine ⟨?_, ?_, ?_, ?_, ver, by simpa using hver, hnver⟩
              · rw [hnch, hacs, sliceSum_succ info.changeset i 0 dch hch, sliceSum_zero,
                    add_zero]
              · rw [hnts, hats, sliceSum_succ info.timestamp i 0 dts hts, sliceSum_zero,
                    add_zero]
              · rw [hnuid, haus, sliceSum_succ info.uid i 0 duid huid, sliceSum_zero,
                    add_zero]
              · rw [sliceSum_succ info.user_sid i 0 dsid hsid, sliceSum_zero, add_zero,
                    ← hass]
                exact hnuser
          | succ j =>
            obtain ⟨node, hget, hid2, hloc2, hinfo2, hnone2⟩ := hrest j (by omega)
            refine ⟨node, by simpa using hget, ?_, ?_, ?_, hnone2⟩
            · rw [hid2, haccid, sliceSum_succ dense.id i (j + 1) did hid]
              ring
            · have e1 : accN.lon + sliceSum dense.lon (i + 1) (j + 1)
                  = acc.lon + sliceSum dense.lon i (j + 1 + 1) := by
                rw [hacclon, sliceSum_succ dense.lon i (j + 1) dlon hlon]; ring
              have e2 : accN.lat + sliceSum dense.lat (i + 1) (j + 1)
                  = acc.lat + sliceSum dense.lat i (j + 1 + 1) := by
                rw [hacclat, sliceSum_succ dense.lat i (j + 1) dlat hlat]; ring
              rw [hloc2, e1, e2]
            · intro info hi
              obtain ⟨hch2, hts2, huid2, huser2, ver, hver2, hnver2⟩ := hinfo2 info hi
              obtain ⟨dch, dts, duid, dsid, hch, hts, huid, hsid, hacs, hats, haus, hass,
                _, _, _, _, _, _, _⟩ := hinfoC info hi
              refine ⟨?_, ?_, ?_, ?_, ver, ?_, hnver2⟩
              · rw [hch2, hacs, sliceSum_succ info.changeset i (j + 1) dch hch]
                ring_nf
              · rw [hts2, hats, sliceSum_succ info.timestamp i (j + 1) dts hts]
                ring_nf
              · rw [huid2, haus, sliceSum_succ info.uid i (j + 1) duid huid]
                ring_nf
              · rw [← huser2, hass, sliceSum_succ info.user_sid i (j + 1) dsid hsid]
                ring_nf
              · rw [show i + (j + 1) = i + 1 + j from by omega]
                exact hver2

theorem sliceSum_from_zero (xs : List Int) (k : Nat) :
    sliceSum xs 0 k = (xs.take k).sum := by
  simp [sliceSum]

/-- C1 (amended): dense-node decoding maintains seven running accumulators (id,
lat, lon, uid, user_sid, changeset, timestamp) initialized to 0 that accumulate
the per-node deltas, `version` is read absolute (not delta-coded) from
`DenseInfo`, and each emitted location coordinate is
`(accumulated raw value * granularity + offset) / 100` (truncating division,
narrowed to the 32-bit `Location` coordinate) in 10^-7-degree units; without
`DenseInfo` the emitted header fields keep the defaults (version 0, uid 0,
changeset 0, timestamp 0, user "", visible). -/
theorem C1_dense_node_decoding (p : PBFBlockParams) (dense : DenseNodesMsg)
    (nodes : List DecodedNode) (h : parse_dense_node_group p dense = some nodes) :
    nodes.length = dense.id.length ∧
    ∀ j, j < nodes.length → ∃ node, nodes[j]? = some node ∧
      node.id = (dense.id.take (j + 1)).sum ∧
      node.location = (if node.visible then
          some (toInt32 (Int.tdiv ((dense.lon.take (j + 1)).sum * p.granularity + p.lon_offset) 100),
                toInt32 (Int.tdiv ((dense.lat.take (j + 1)).sum * p.granularity + p.lat_offset) 100))
        else none) ∧
      (∀ info, dense.denseinfo = some info →
        node.changeset = toUInt32Wrap ((info.changeset.take (j + 1)).sum) ∧
        node.timestamp = ((info.timestamp.take (j + 1)).sum) * p.date_factor ∧
        node.uid = uid_from_signed (toInt32 ((info.uid.take (j + 1)).sum)) ∧
        st_get p.stringtable (toInt32 ((info.user_sid.take (j + 1)).sum)) = some node.user ∧
        ∃ ver, info.version[j]? = some ver ∧ node.version = toVersion ver) ∧
      (dense.denseinfo = none →
        node.version = 0 ∧ node.changeset = 0 ∧ node.timestamp = 0 ∧ node.uid = 0 ∧
        node.user = "" ∧ node.visible = true) := by
  have hdiv : location_divisor = (100 : Int) := by decide
  obtain ⟨hlen, hmain⟩ := parse_dense_go_spec p dense dense.id.length 0 denseAcc0 nodes h
  refine ⟨hlen, ?_⟩
  intro j hj
  rw [hlen] at hj
  obtain ⟨node, hget, hid, hloc, hinfo, hnone⟩ := hmain j hj
  refine ⟨node, hget, ?_, ?_, ?_, hnone⟩
  · rw [hid]
    simp [denseAcc0, sliceSum_from_zero]
  · rw [hloc]
    simp [denseAcc0, sliceSum_from_zero, location_from, hdiv]
  · intro info hi
    obtain ⟨h1, h2, h3, h4, ver, hver, hver2⟩ := hinfo info hi
    refine ⟨?_, ?_, ?_, ?_, ver, by simpa using hver, hver2⟩
    · rw [h1]; simp [denseAcc0, sliceSum_from_zero]
    · rw [h2]; simp [denseAcc0, sliceSum_from_zero]
    · rw [h3]; simp [denseAcc0, sliceSum_from_zero]
    · rw [← h4]; simp [denseAcc0, sliceSum_from_zero]

/-- C1 witness: the spec's example group (id deltas [1,1,1], lat deltas
[100,0,-50], lon deltas [200,0,0], granularity 100, offsets 0) decodes to the
three nodes of `exNodes1`, with ids 1, 2, 3 and (lon,lat) locations (200,100),
(200,100), (200,50). -/
theorem C1_dense_node_decoding_witness :
    parse_dense_node_group exParams1 exDense1 = some exNodes1 ∧
    exNodes1.length = exDense1.id.length :=
  ⟨by decide, (C1_dense_node_decoding exParams1 exDense1 exNodes1 (by decide)).1⟩

/-- C1 counterexample: on the claim's own example input the decoder emits the
locations (200,100), (200,100), (200,50) — the values (20000,10000),
(20000,10000), (20000,5000) asserted by the claim are the nanodegree values,
a factor 100 too large for 10^-7-degree units. -/
theorem C1_location_example_counterexample :
    parse_dense_node_group exParams1 exDense1 = some exNodes1 ∧
    exNodes1.map (fun n => (n.id, n.location)) =
      [(1, some (200, 100)), (2, some (200, 100)), (3, some (200, 50))] ∧
    some ((200 : Int), (100 : Int)) ≠ some ((20000 : Int), (10000 : Int)) ∧
    some ((200 : Int), (50 : Int)) ≠ some ((20000 : Int), (5000 : Int)) := by
  refine ⟨by decide, by decide, by decide, by decide⟩

theorem uid_from_signed_nonneg (u : Int) : 0 ≤ uid_from_signed u := by
  unfold uid_from_signed
  split_ifs with h <;> omega

theorem parse_dense_go_uid_nonneg (p : PBFBlockParams) (dense : DenseNodesMsg) :
    ∀ (r i : Nat) (acc : DenseAcc) (nodes : List DecodedNode),
      parse_dense_go p dense i r acc = some nodes → ∀ dn ∈ nodes, 0 ≤ dn.uid := by
  intro r
  induction r with
  | zero =>
    intro i acc nodes h dn hdn
    simp only [parse_dense_go, Option.some_inj] at h
    subst h
    simp at hdn
  | succ r ih =>
    intro i acc nodes h dn hdn
    simp only [parse_dense_go] at h
    cases hs : dense_step p dense i acc with
    | none => rw [hs] at h; simp at h
    | some pr =>
      obtain ⟨node0, accN⟩ := pr
      rw [hs] at h
      simp only [] at h
      cases hrec : parse_dense_go p dense (i + 1) r accN with
      | none => rw [hrec] at h; simp at h
      | some rest =>
        rw [hrec] at h
        simp only [Option.some_inj] at h
        subst h
        rcases List.mem_cons.mp hdn with rfl | hm
        · obtain ⟨did, dlat, dlon, hid, hlat, hlon, haccid, hacclat, hacclon,
            hnid, hnloc, hinfoC, hnoneC⟩ := dense_step_spec p dense i acc dn accN hs
          cases hdi : dense.denseinfo with
          | some info =>
            obtain ⟨dch, dts, duid, dsid, hch, hts, huid2, hsid, hacs, hats, haus, hass,
              hnch, hnts, hnuid, hnuser, ver, hver, hnver⟩ := hinfoC info hdi
            rw [hnuid]
            exact uid_from_signed_nonneg _
          | none =>
            obtain ⟨_, _, _, _, _, _, _, huid0, _, _⟩ := hnoneC hdi
            rw [huid0]
        · exact ih (i + 1) accN rest hrec dn hm

/-- C9: a negative wire uid normalizes to 0 (anonymous): `uid_from_signed u`
stores 0 when u < 0 and u otherwise, so the stored uid of every emitted entity
(plain node or dense node) is non-negative. -/
theorem C9_uid_normalization :
    (∀ u : Int, (u < 0 → uid_from_signed u = 0) ∧ (0 ≤ u → uid_from_signed u = u) ∧
      0 ≤ uid_from_signed u) ∧
    (∀ (p : PBFBlockParams) (msg : NodeMsg) (dn : DecodedNode),
      parse_node p msg = some dn → 0 ≤ dn.uid) ∧
    (∀ (p : PBFBlockParams) (dense : DenseNodesMsg) (nodes : List DecodedNode),
      parse_dense_node_group p dense = some nodes → ∀ dn ∈ nodes, 0 ≤ dn.uid) := by
  refine ⟨?_, ?_, ?_⟩
  · intro u
    refine ⟨?_, ?_, uid_from_signed_nonneg u⟩ <;>
      (intro hu; unfold uid_from_signed; split_ifs <;> omega)
  · intro p msg dn h
    unfold parse_node at h
    cases hi : msg.info with
    | some info =>
      rw [hi] at h
      simp only [] at h
      cases hu : st_get p.stringtable (toInt32 info.user_sid) with
      | none => rw [hu] at h; simp at h
      | some user =>
        rw [hu] at h
        simp only [] at h
        cases ht : resolve_tags p.stringtable msg.keys msg.vals with
        | none => rw [ht] at h; simp at h
        | some tags =>
          rw [ht] at h
          simp only [Option.some_inj] at h
          subst h
          exact uid_from_signed_nonneg info.uid
    | none =>
      rw [hi] at h
      simp only [] at h
      cases ht : resolve_tags p.stringtable msg.keys msg.vals with
      | none => rw [ht] at h; simp at h
      | some tags =>
        rw [ht] at h
        simp only [Option.some_inj] at h
        subst h
        exact le_refl 0
  · intro p dense nodes h dn hdn
    exact parse_dense_go_uid_nonneg p dense dense.id.length 0 denseAcc0 nodes h dn hdn

/-- C9 witness: concrete instances, including a plain node whose `Info` carries
the negative wire uid -4 (stored as 0) and the dense nodes of `exNodes1`. -/
theorem C9_uid_normalization_witness :
    uid_from_signed (-5) = 0 ∧ uid_from_signed 7 = 7 ∧ 0 ≤ uid_from_signed (-5) ∧
    0 ≤ exNode3.uid ∧
    0 ≤ (⟨1, 0, 0, 0, 0, "", true, some (200, 100), []⟩ : DecodedNode).uid :=
  ⟨(C9_uid_normalization.1 (-5)).1 (by decide),
   (C9_uid_normalization.1 7).2.1 (by decide),
   (C9_uid_normalization.1 (-5)).2.2,
   C9_uid_normalization.2.1 exParams2 exNodeMsg3 exNode3 (by decide),
   C9_uid_normalization.2.2 exParams1 exDense1 exNodes1 (by decide)
     ⟨1, 0, 0, 0, 0, "", true, some (200, 100), []⟩ (by decide)⟩

theorem add_tags_go_nil (st : List String) (n : Nat) (acc : List (String × String)) :
    add_tags_go st [] n acc = some (n, acc.reverse) := by
  rw [add_tags_go.eq_def]

theorem add_tags_go_cons (st : List String) (key : Int) (rest : List Int) (n : Nat)
    (acc : List (String × String)) :
    add_tags_go st (key :: rest) n acc =
      (if key = 0 then some (n + 1, acc.reverse)
       else
        match rest with
        | [] => none
        | v :: rest2 =>
          match st_get st key, st_get st v with
          | some ks, some vs => add_tags_go st rest2 (n + 2) ((ks, vs) :: acc)
          | _, _ => none) := by
  rw [add_tags_go.eq_def]

theorem add_tags_go_acc_aux (st : List String) :
    ∀ (m : Nat) (l : List Int), l.length ≤ m → ∀ (n : Nat) (acc : List (String × String)),
      add_tags_go st l n acc =
        (add_tags_go st l n []).map (fun r => (r.1, acc.reverse ++ r.2)) := by
  intro m
  induction m with
  | zero =>
    intro l hl n acc
    cases l with
    | nil => simp [add_tags_go_nil]
    | cons key rest => simp at hl
  | succ m ih =>
    intro l hl n acc
    cases l with
    | nil => simp [add_tags_go_nil]
    | cons key rest =>
      rw [add_tags_go_cons, add_tags_go_cons]
      split_ifs with hk
      · simp
      · cases rest with
        | nil => simp
        | cons v rest2 =>
          simp only []
          cases h1 : st_get st key with
          | none => simp
          | some ks =>
            cases h2 : st_get st v with
            | none => simp
            | some vs =>
              simp only []
              have hr2 : rest2.length ≤ m := by
                simp only [List.length_cons] at hl; omega
              rw [ih rest2 hr2 (n + 2) ((ks, vs) :: acc),
                  ih rest2 hr2 (n + 2) [(ks, vs)]]
              cases ho : add_tags_go st rest2 (n + 2) [] with
              | none => simp
              | some r => simp

theorem add_tags_go_acc (st : List String) (l : List Int) (n : Nat)
    (acc : List (String × String)) :
    add_tags_go st l n acc =
      (add_tags_go st l n []).map (fun r => (r.1, acc.reverse ++ r.2)) :=
  add_tags_go_acc_aux st l.length l le_rfl n acc

theorem getElem?_drop_cons (kv : List Int) (n : Nat) (k : Int)
    (h : kv[n]? = some k) : kv.drop n = k :: kv.drop (n + 1) := by
  obtain ⟨hn, hget⟩ := List.getElem?_eq_some.mp h
  rw [List.drop_eq_getElem_cons hn, hget]

/-- C5 (amended): the `keys_vals` stream is consumed per node: a `0` at the
cursor is consumed as the single end-of-tags sentinel of the node, and each
non-zero (key, value) index pair is resolved against the block's string table
(an index outside the table, or a key without a following value index, is
fatal); but a stream misaligned with the id count is NOT a fatal decode error:
once the cursor is at or past the end of `keys_vals`, `add_tags` returns with
no tags and no error, so nodes beyond the last sentinel simply get no tags. -/
theorem C5_keys_vals_tolerant (st : List String) (kv : List Int) (n : Nat) :
    (kv.length ≤ n → add_tags st kv n = some (n, [])) ∧
    (kv[n]? = some 0 → add_tags st kv n = some (n + 1, [])) ∧
    (∀ k v ks vs, kv[n]? = some k → k ≠ 0 → kv[n + 1]? = some v →
      st_get st k = some ks → st_get st v = some vs →
      add_tags st kv n = (add_tags st kv (n + 2)).map (fun r => (r.1, (ks, vs) :: r.2))) ∧
    (∀ k v, kv[n]? = some k → k ≠ 0 → kv[n + 1]? = some v →
      (st_get st k = none ∨ st_get st v = none) → add_tags st kv n = none) ∧
    (∀ k, kv[n]? = some k → k ≠ 0 → kv.length ≤ n + 1 → add_tags st kv n = none) := by
  refine ⟨?_, ?_, ?_, ?_, ?_⟩
  · intro hle
    unfold add_tags
    rw [List.drop_eq_nil_of_le hle, add_tags_go_nil]
    rfl
  · intro h0
    unfold add_tags
    rw [getElem?_drop_cons kv n 0 h0, add_tags_go_cons]
    simp
  · intro k v ks vs hk hk0 hv hks hvs
    unfold add_tags
    rw [getElem?_drop_cons kv n k hk, getElem?_drop_cons kv (n + 1) v hv,
        add_tags_go_cons, if_neg hk0]
    simp only [hks, hvs]
    rw [add_tags_go_acc st (kv.drop (n + 2)) (n + 2) [(ks, vs)]]
    cases ho : add_tags_go st (kv.drop (n + 2)) (n + 2) [] with
    | none => simp
    | some r => simp
  · intro k v hk hk0 hv hnone
    unfold add_tags
    rw [getElem?_drop_cons kv n k hk, getElem?_drop_cons kv (n + 1) v hv,
        add_tags_go_cons, if_neg hk0]
    rcases hnone with hn1 | hn2
    · simp [hn1]
    · cases hks : st_get st k with
      | none => simp [hks]
      | some ks => simp [hks, hn2]
  · intro k hk hk0 hle
    unfold add_tags
    rw [getElem?_drop_cons kv n k hk, List.drop_eq_nil_of_le hle,
        add_tags_go_cons, if_neg hk0]

/-- C5 witness: concrete instances of the per-node `keys_vals` consumption. -/
theorem C5_keys_vals_tolerant_witness :
    add_tags ["", "amenity", "cafe"] [1, 2, 0] 3 = some (3, []) ∧
    add_tags ["", "amenity", "cafe"] [0, 1, 2] 0 = some (1, []) ∧
    add_tags ["", "amenity", "cafe"] [1, 2, 0] 0 =
      (add_tags ["", "amenity", "cafe"] [1, 2, 0] 2).map
        (fun r => (r.1, ("amenity", "cafe") :: r.2)) ∧
    add_tags ["", "amenity", "cafe"] [9, 2, 0] 0 = none ∧
    add_tags ["", "amenity", "cafe"] [1] 0 = none :=
  ⟨(C5_keys_vals_tolerant ["", "amenity", "cafe"] [1, 2, 0] 3).1 (by decide),
   (C5_keys_vals_tolerant ["", "amenity", "cafe"] [0, 1, 2] 0).2.1 (by decide),
   (C5_keys_vals_tolerant ["", "amenity", "cafe"] [1, 2, 0] 0).2.2.1 1 2 "amenity" "cafe"
     (by decide) (by decide) (by decide) (by decide) (by decide),
   (C5_keys_vals_tolerant ["", "amenity", "cafe"] [9, 2, 0] 0).2.2.2.1 9 2
     (by decide) (by decide) (by decide) (Or.inl (by decide)),
   (C5_keys_vals_tolerant ["", "amenity", "cafe"] [1] 0).2.2.2.2 1
     (by decide) (by decide) (by decide)⟩

/-- C5 counterexample: a `keys_vals` stream with fewer sentinels (one) than
nodes (three) is not a fatal decode error — the group decodes successfully,
the nodes after the sentinel getting no tags. -/
theorem C5_missing_sentinel_counterexample :
    exDense2.id.length = 3 ∧ exDense2.keys_vals.count 0 = 1 ∧ (1 : Nat) ≠ 3 ∧
    parse_dense_node_group exParams1 exDense2 = some exNodes2 := by
  refine ⟨by decide, by decide, by decide, by decide⟩

/-- C3: the blob parser dispatches on which payload field of the decoded `Blob`
is set: a `raw` payload passes through unchanged; a `zlib_data` payload is
inflated to exactly `raw_size` bytes, inflation producing more or fewer bytes
(or failing) being an error; an `lzma_data` payload fails with the
unsupported-compression error; a `Blob` with no payload field fails with the
empty-blob error. -/
theorem C3_blob_dispatch :
    (∀ (inflate : List Nat → Option (List Nat)) (b : BlobMsg) (data : List Nat),
      b.raw = some data → blob_decode inflate b = Except.ok data) ∧
    (∀ (inflate : List Nat → Option (List Nat)) (b : BlobMsg) (z out : List Nat),
      b.raw = none → b.zlib_data = some z → inflate z = some out →
      toUInt64Wrap (b.raw_size.getD 0) ≤ max_uncompressed_blob_size →
      ((out.length = toUInt64Wrap (b.raw_size.getD 0) →
          blob_decode inflate b = Except.ok out) ∧
       (out.length ≠ toUInt64Wrap (b.raw_size.getD 0) →
          blob_decode inflate b = Except.error ("failed to uncompress data")))) ∧
    (∀ (inflate : List Nat → Option (List Nat)) (b : BlobMsg) (z : List Nat),
      b.raw = none → b.zlib_data = some z → inflate z = none →
      toUInt64Wrap (b.raw_size.getD 0) ≤ max_uncompressed_blob_size →
      blob_decode inflate b = Except.error ("failed to uncompress data")) ∧
    (∀ (inflate : List Nat → Option (List Nat)) (b : BlobMsg) (l : List Nat),
      b.raw = none → b.zlib_data = none → b.lzma_data = some l →
      blob_decode inflate b = Except.error ("lzma blobs not implemented")) ∧
    (∀ (inflate : List Nat → Option (List Nat)) (b : BlobMsg),
      b.raw = none → b.zlib_data = none → b.lzma_data = none →
      blob_decode inflate b = Except.error ("Blob contains no data")) := by
  refine ⟨?_, ?_, ?_, ?_, ?_⟩
  · intro inflate b data hraw
    unfold blob_decode
    rw [hraw]
  · intro inflate b z out hraw hz hinf hcap
    unfold blob_decode
    rw [hraw, hz]
    simp only []
    rw [if_pos hcap]
    unfold zlib_uncompress
    rw [hinf]
    simp only []
    constructor
    · intro he; rw [if_pos he]
    · intro hne; rw [if_neg hne]
  · intro inflate b z hraw hz hinf hcap
    unfold blob_decode
    rw [hraw, hz]
    simp only []
    rw [if_pos hcap]
    unfold zlib_uncompress
    rw [hinf]
  · intro inflate b l hraw hz hl
    unfold blob_decode
    rw [hraw, hz, hl]
  · intro inflate b hraw hz hl
    unfold blob_decode
    rw [hraw, hz, hl]

/-- C3 witness: concrete blobs exercising each dispatch branch. -/
theorem C3_blob_dispatch_witness :
    blob_decode (fun _ => none) ⟨some [1, 2], none, none, none⟩ = Except.ok [1, 2] ∧
    blob_decode (fun _ => some [7, 8]) ⟨none, some 2, some [9], none⟩ = Except.ok [7, 8] ∧
    blob_decode (fun _ => some [7, 8]) ⟨none, some 3, some [9], none⟩ =
      Except.error ("failed to uncompress data") ∧
    blob_decode (fun _ => none) ⟨none, some 2, some [9], none⟩ =
      Except.error ("failed to uncompress data") ∧
    blob_decode (fun _ => none) ⟨none, none, none, some [5]⟩ =
      Except.error ("lzma blobs not implemented") ∧
    blob_decode (fun _ => none) emptyBlobMsg = Except.error ("Blob contains no data") :=
  ⟨C3_blob_dispatch.1 (fun _ => none) ⟨some [1, 2], none, none, none⟩ [1, 2] rfl,
   (C3_blob_dispatch.2.1 (fun _ => some [7, 8]) ⟨none, some 2, some [9], none⟩ [9] [7, 8]
     rfl rfl rfl (by decide)).1 (by decide),
   (C3_blob_dispatch.2.1 (fun _ => some [7, 8]) ⟨none, some 3, some [9], none⟩ [9] [7, 8]
     rfl rfl rfl (by decide)).2 (by decide),
   C3_blob_dispatch.2.2.1 (fun _ => none) ⟨none, some 2, some [9], none⟩ [9]
     rfl rfl rfl (by decide),
   C3_blob_dispatch.2.2.2.1 (fun _ => none) ⟨none, none, none, some [5]⟩ [5] rfl rfl rfl,
   C3_blob_dispatch.2.2.2.2 (fun _ => none) emptyBlobMsg rfl rfl rfl⟩

theorem read_blob_header_cons (parseBH : List Nat → Option BlobHeaderMsg)
    (expected : String) (b0 b1 b2 b3 : Nat) (rest : List Nat) :
    read_blob_header parseBH expected (b0 :: b1 :: b2 :: b3 :: rest) =
      (if b0 * 16777216 + b1 * 65536 + b2 * 256 + b3 > max_blob_header_size then
        Except.error ("Invalid BlobHeader size")
       else if rest.length < b0 * 16777216 + b1 * 65536 + b2 * 256 + b3 then
        Except.error ("Read error.")
       else
        match parseBH (rest.take (b0 * 16777216 + b1 * 65536 + b2 * 256 + b3)) with
        | none => Except.error ("Failed to parse BlobHeader.")
        | some bh =>
          if bh.type = expected then
            Except.ok (bh.datasize, rest.drop (b0 * 16777216 + b1 * 65536 + b2 * 256 + b3))
          else
            Except.error ("Blob does not have expected type (OSMHeader in first Blob, OSMData in following Blobs).")) :=
  rfl

/-- C4: a blob-header length of exactly 32 KiB passes the cap check of
`read_blob_header` while 32 KiB + 1 is a fatal error, and a blob payload of
exactly 32 MiB passes the `BlobParser` constructor check while 32 MiB + 1 is a
fatal error; the 32 MiB cap is applied both to the compressed size (when the
blob is read) and to the declared post-decompression size `raw_size` (the
`assert` before inflation). -/
theorem C4_size_caps :
    (∀ (parseBH : List Nat → Option BlobHeaderMsg) (expected : String)
       (body rest : List Nat) (bh : BlobHeaderMsg),
      body.length = 32768 → parseBH body = some bh → bh.type = expected →
      read_blob_header parseBH expected (be32 32768 ++ (body ++ rest)) =
        Except.ok (bh.datasize, rest)) ∧
    (∀ (parseBH : List Nat → Option BlobHeaderMsg) (expected : String) (tail : List Nat),
      read_blob_header parseBH expected (be32 32769 ++ tail) =
        Except.error ("Invalid BlobHeader size")) ∧
    (∀ stream : List Nat, 33554432 ≤ stream.length →
      blob_parser_read 33554432 stream =
        Except.ok (stream.take 33554432, stream.drop 33554432)) ∧
    (∀ stream : List Nat, blob_parser_read 33554433 stream =
      Except.error ("invalid blob size: 33554433")) ∧
    (∀ (inflate : List Nat → Option (List Nat)) (b : BlobMsg) (z out : List Nat),
      b.raw = none → b.zlib_data = some z → b.raw_size = some 33554432 →
      inflate z = some out → out.length = 33554432 →
      blob_decode inflate b = Except.ok out) ∧
    (∀ (inflate : List Nat → Option (List Nat)) (b : BlobMsg) (z : List Nat),
      b.raw = none → b.zlib_data = some z → b.raw_size = some 33554433 →
      blob_decode inflate b =
        Except.error ("assertion failed: raw_size <= OSMPBF::max_uncompressed_blob_size")) := by
  refine ⟨?_, ?_, ?_, ?_, ?_, ?_⟩
  · intro parseBH expected body rest bh hbody hbh htype
    rw [show be32 32768 = [0, 0, 128, 0] from by decide]
    simp only [List.cons_append, List.nil_append]
    rw [read_blob_header_cons]
    rw [if_neg (by decide : ¬ (0 * 16777216 + 0 * 65536 + 128 * 256 + 0 > max_blob_header_size))]
    rw [if_neg (by rw [List.length_append, hbody]; omega)]
    rw [show (0 * 16777216 + 0 * 65536 + 128 * 256 + 0 : Nat) = body.length from by omega]
    rw [List.take_left, List.drop_left, hbh]
    simp only []
    rw [if_pos htype]
  · intro parseBH expected tail
    rw [show be32 32769 = [0, 0, 128, 1] from by decide]
    simp only [List.cons_append, List.nil_append]
    rw [read_blob_header_cons]
    rw [if_pos (by decide : 0 * 16777216 + 0 * 65536 + 128 * 256 + 1 > max_blob_header_size)]
  · intro stream hlen
    unfold blob_parser_read
    rw [if_neg (by decide : ¬ ((33554432 : Int) < 0 ∨ (max_uncompressed_blob_size : Int) < 33554432))]
    rw [if_neg (by simpa using hlen)]
    rfl
  · intro stream
    unfold blob_parser_read
    rw [if_pos (by decide : ((33554433 : Int) < 0 ∨ (max_uncompressed_blob_size : Int) < 33554433))]
    rfl
  · intro inflate b z out hraw hz hsize hinf hlen
    unfold blob_decode
    rw [hraw, hz, hsize]
    simp only [Option.getD_some]
    rw [if_pos (by decide : toUInt64Wrap 33554432 ≤ max_uncompressed_blob_size)]
    unfold zlib_uncompress
    rw [hinf]
    simp only []
    rw [if_pos (by rw [hlen]; decide)]
  · intro inflate b z hraw hz hsize
    unfold blob_decode
    rw [hraw, hz, hsize]
    simp only [Option.getD_some]
    rw [if_neg (by decide : ¬ (toUInt64Wrap 33554433 ≤ max_uncompressed_blob_size))]

/-- C4 witness: the boundary sizes exercised on concrete streams. -/
theorem C4_size_caps_witness :
    read_blob_header (fun _ => some ⟨("OSMHeader"), 5⟩) ("OSMHeader")
      (be32 32768 ++ (List.replicate 32768 0 ++ [])) = Except.ok (5, []) ∧
    read_blob_header (fun _ => some ⟨("OSMHeader"), 5⟩) ("OSMHeader")
      (be32 32769 ++ []) = Except.error ("Invalid BlobHeader size") ∧
    blob_parser_read 33554432 (List.replicate 33554432 0) =
      Except.ok ((List.replicate 33554432 0).take 33554432,
                 (List.replicate 33554432 0).drop 33554432) ∧
    blob_parser_read 33554433 [] = Except.error ("invalid blob size: 33554433") ∧
    blob_decode (fun _ => some (List.replicate 33554432 0)) ⟨none, some 33554432, some [9], none⟩ =
      Except.ok (List.replicate 33554432 0) ∧
    blob_decode (fun _ => none) ⟨none, some 33554433, some [9], none⟩ =
      Except.error ("assertion failed: raw_size <= OSMPBF::max_uncompressed_blob_size") := by
  obtain ⟨h1, h2, h3, h4, h5, h6⟩ := C4_size_caps
  refine ⟨?_, h2 _ _ [], ?_, h4 [], ?_, h6 _ _ [9] rfl rfl rfl⟩
  · exact h1 (fun _ => some ⟨("OSMHeader"), 5⟩) ("OSMHeader") (List.replicate 32768 0) []
      ⟨("OSMHeader"), 5⟩ (by rw [List.length_replicate]) rfl rfl
  · exact h3 (List.replicate 33554432 0) (by rw [List.length_replicate])
  · exact h5 (fun _ => some (List.replicate 33554432 0)) ⟨none, some 33554432, some [9], none⟩
      [9] (List.replicate 33554432 0) rfl rfl rfl rfl (by rw [List.length_replicate])

/-- C6 (amended): each `required_features` entry equal to "OsmSchema-V0.6" is
accepted and ignored, "DenseNodes" sets the dense-nodes flag,
"HistoricalInformation" sets the multiple-object-versions flag, and any other
value fails with an error naming the unsupported feature — with the message
capitalized as "Required feature not supported: <feature>". -/
theorem C6_required_features (h : HeaderFlags) :
    scan_required_features [] h = Except.ok h ∧
    (∀ rest, scan_required_features (("OsmSchema-V0.6") :: rest) h =
      scan_required_features rest h) ∧
    (∀ rest, scan_required_features (("DenseNodes") :: rest) h =
      scan_required_features rest { h with pbf_dense_nodes := true }) ∧
    (∀ rest, scan_required_features (("HistoricalInformation") :: rest) h =
      scan_required_features rest { h with has_multiple_object_versions := true }) ∧
    (∀ feature rest, feature ≠ "OsmSchema-V0.6" → feature ≠ "DenseNodes" →
      feature ≠ "HistoricalInformation" →
      scan_required_features (feature :: rest) h =
        Except.error ("Required feature not supported: " ++ feature)) := by
  refine ⟨rfl, ?_, ?_, ?_, ?_⟩
  · intro rest
    rw [scan_required_features.eq_def]
    simp
  · intro rest
    rw [scan_required_features.eq_def]
    simp
  · intro rest
    rw [scan_required_features.eq_def]
    simp
  · intro feature rest h1 h2 h3
    rw [scan_required_features.eq_def]
    simp only [if_neg h1, if_neg h2, if_neg h3]

/-- C6 witness: each branch of the required-feature scan at a concrete input,
including the unsupported feature "Sort.Type_then_ID". -/
theorem C6_required_features_witness :
    scan_required_features [] flags0 = Except.ok flags0 ∧
    scan_required_features [("OsmSchema-V0.6")] flags0 = scan_required_features [] flags0 ∧
    scan_required_features [("DenseNodes")] flags0 =
      scan_required_features [] { flags0 with pbf_dense_nodes := true } ∧
    scan_required_features [("HistoricalInformation")] flags0 =
      scan_required_features [] { flags0 with has_multiple_object_versions := true } ∧
    scan_required_features [("Sort.Type_then_ID")] flags0 =
      Except.error ("Required feature not supported: Sort.Type_then_ID") :=
  ⟨(C6_required_features flags0).1,
   (C6_required_features flags0).2.1 [],
   (C6_required_features flags0).2.2.1 [],
   (C6_required_features flags0).2.2.2.1 [],
   (C6_required_features flags0).2.2.2.2 ("Sort.Type_then_ID") []
     (by decide) (by decide) (by decide)⟩

/-- C6 counterexample: for `required_features = ["OsmSchema-V0.6",
"Sort.Type_then_ID"]` the scan fails with "Required feature not supported:
Sort.Type_then_ID" (capital R), not with the lowercase message quoted by the
claim. -/
theorem C6_feature_message_counterexample :
    scan_required_features [("OsmSchema-V0.6"), ("Sort.Type_then_ID")] flags0 =
      Except.error ("Required feature not supported: Sort.Type_then_ID") ∧
    ("Required feature not supported: Sort.Type_then_ID") ≠
      ("required feature not supported: Sort.Type_then_ID") :=
  ⟨by decide, by decide⟩

/-- C7 (amended): for the empty input stream open() fails, but not with a
framing error: EOF at the initial 4-byte length read makes `read_blob_header`
return size 0 (EOF there is not an error), the 0-byte blob parses as an empty
`Blob` message, and open() fails with the empty-blob error "Blob contains no
data". -/
theorem C7_empty_input (parseBH : List Nat → Option BlobHeaderMsg)
    (parseBlob : List Nat → Option BlobMsg) (parseHB : List Nat → Option HeaderBlockMsg)
    (inflate : List Nat → Option (List Nat)) (h0 : HeaderFlags)
    (hempty : parseBlob [] = some emptyBlobMsg) :
    pbf_open parseBH parseBlob parseHB inflate [] h0 =
      Except.error ("Blob contains no data") := by
  unfold pbf_open
  rw [show read_blob_header parseBH ("OSMHeader") [] = Except.ok (0, []) from rfl]
  simp only []
  rw [show blob_parser_read 0 [] = Except.ok ([], []) from by decide]
  simp only []
  rw [hempty]
  rfl

/-- C7 witness: the amended behavior at concrete protobuf decoders. -/
theorem C7_empty_input_witness :
    ((fun b => if b = ([] : List Nat) then some emptyBlobMsg else none) [] =
      some emptyBlobMsg) ∧
    pbf_open (fun _ => none) (fun b => if b = ([] : List Nat) then some emptyBlobMsg else none)
      (fun _ => none) (fun _ => none) [] flags0 = Except.error ("Blob contains no data") :=
  ⟨by decide,
   C7_empty_input (fun _ => none) (fun b => if b = ([] : List Nat) then some emptyBlobMsg else none)
     (fun _ => none) (fun _ => none) flags0 (by decide)⟩

/-- C7 counterexample: on the empty input, open() fails with the empty-blob
error "Blob contains no data", which is not the framing error "EOF before
OSMHeader" asserted by the claim (no such framing error exists in the code). -/
theorem C7_empty_input_counterexample :
    pbf_open (fun _ => none) (fun _ => some emptyBlobMsg) (fun _ => none) (fun _ => none)
      [] flags0 = Except.error ("Blob contains no data") ∧
    ("Blob contains no data") ≠ ("EOF before OSMHeader") :=
  ⟨by decide, by decide⟩

theorem and_255_eq (x : Nat) : 255 &&& x = x % 256 := by
  rw [Nat.and_comm]
  have e := Nat.and_pow_two_sub_one_eq_mod x 8
  norm_num at e
  exact e

theorem and_63_eq (x : Nat) : x &&& 63 = x % 64 := by
  have e := Nat.and_pow_two_sub_one_eq_mod x 6
  norm_num at e
  exact e

theorem and_2047_eq (x : Nat) : x &&& 2047 = x % 2048 := by
  have e := Nat.and_pow_two_sub_one_eq_mod x 11
  norm_num at e
  exact e

theorem and_4095_eq (x : Nat) : x &&& 4095 = x % 4096 := by
  have e := Nat.and_pow_two_sub_one_eq_mod x 12
  norm_num at e
  exact e

theorem and_65535_eq (x : Nat) : x &&& 65535 = x % 65536 := by
  have e := Nat.and_pow_two_sub_one_eq_mod x 16
  norm_num at e
  exact e

theorem and_262143_eq (x : Nat) : x &&& 262143 = x % 262144 := by
  have e := Nat.and_pow_two_sub_one_eq_mod x 18
  norm_num at e
  exact e

theorem and_2097151_eq (x : Nat) : x &&& 2097151 = x % 2097152 := by
  have e := Nat.and_pow_two_sub_one_eq_mod x 21
  norm_num at e
  exact e

theorem shiftR6_eq (x : Nat) : x >>> 6 = x / 64 := by
  rw [Nat.shiftRight_eq_div_pow]

theorem shiftR12_eq (x : Nat) : x >>> 12 = x / 4096 := by
  rw [Nat.shiftRight_eq_div_pow]

theorem shiftR18_eq (x : Nat) : x >>> 18 = x / 262144 := by
  rw [Nat.shiftRight_eq_div_pow]

theorem or_128_eq : ∀ q < 64, q ||| 128 = q + 128 := by decide

theorem or_192_eq : ∀ q < 32, q ||| 192 = q + 192 := by decide

theorem or_224_eq : ∀ q < 16, q ||| 224 = q + 224 := by decide

theorem or_240_eq : ∀ q < 8, q ||| 240 = q + 240 := by decide

theorem utf8_len_1 : ∀ b < 128, utf8_sequence_length b = 1 := by decide

theorem utf8_len_2 : ∀ b < 256, 192 ≤ b → b ≤ 223 → utf8_sequence_length b = 2 := by decide

theorem utf8_len_3 : ∀ b < 256, 224 ≤ b → b ≤ 239 → utf8_sequence_length b = 3 := by decide

theorem utf8_len_4 : ∀ b < 256, 240 ≤ b → b ≤ 247 → utf8_sequence_length b = 4 := by decide

/-- C10: for every byte sequence that is a single valid shortest-form UTF-8
encoding of a codepoint (1 to 4 bytes, matching the classification of
`utf8_sequence_length` on its leading byte), `next_utf8_codepoint` consumes
exactly those bytes (whatever follows them) and returns the encoded codepoint,
and `append_codepoint_as_utf8` applied to that codepoint reproduces exactly the
original byte sequence. -/
theorem C10_utf8_roundtrip (s rest : List Nat) (h : isShortestFormUtf8 s = true) :
    ∃ cp, next_utf8_codepoint (s ++ rest) = Except.ok (cp, s.length) ∧
      append_codepoint_as_utf8 cp = s ∧
      utf8_sequence_length (255 &&& s.headD 0) = s.length := by
  match s, h with
  | [b0], h =>
    simp only [isShortestFormUtf8, decide_eq_true_eq] at h
    have hb0 : 255 &&& b0 = b0 := by rw [and_255_eq]; omega
    refine ⟨b0, ?_, ?_, ?_⟩
    · show next_utf8_codepoint (b0 :: rest) = Except.ok (b0, 1)
      unfold next_utf8_codepoint
      simp only [hb0]
      rw [utf8_len_1 b0 h]
    · unfold append_codepoint_as_utf8
      rw [if_pos h]
      rw [show b0 % 256 = b0 from by omega]
    · show utf8_sequence_length (255 &&& b0) = 1
      rw [hb0]
      exact utf8_len_1 b0 h
  | [b0, b1], h =>
    simp only [isShortestFormUtf8, Bool.and_eq_true, decide_eq_true_eq] at h
    obtain ⟨⟨⟨hb0l, hb0u⟩, hb1l⟩, hb1u⟩ := h
    have hb0 : 255 &&& b0 = b0 := by rw [and_255_eq]; omega
    refine ⟨(b0 % 32) * 64 + b1 % 64, ?_, ?_, ?_⟩
    · show next_utf8_codepoint (b0 :: b1 :: rest) =
        Except.ok ((b0 % 32) * 64 + b1 % 64, 2)
      unfold next_utf8_codepoint
      simp only [hb0]
      rw [utf8_len_2 b0 (by omega) (by omega) (by omega)]
      simp only []
      rw [show ((b0 <<< 6) &&& 2047) + (b1 &&& 63) = (b0 % 32) * 64 + b1 % 64 from by
        rw [Nat.shiftLeft_eq, and_2047_eq, and_63_eq]; omega]
    · unfold append_codepoint_as_utf8
      rw [if_neg (by omega : ¬ ((b0 % 32) * 64 + b1 % 64 < 128))]
      rw [if_pos (by omega : (b0 % 32) * 64 + b1 % 64 < 2048)]
      rw [show ((b0 % 32) * 64 + b1 % 64) >>> 6 = b0 % 32 from by rw [shiftR6_eq]; omega]
      rw [show ((b0 % 32) * 64 + b1 % 64) &&& 63 = b1 % 64 from by rw [and_63_eq]; omega]
      rw [or_192_eq (b0 % 32) (by omega), or_128_eq (b1 % 64) (by omega)]
      rw [show (b0 % 32 + 192) % 256 = b0 from by omega]
      rw [show (b1 % 64 + 128) % 256 = b1 from by omega]
    · show utf8_sequence_length (255 &&& b0) = 2
      rw [hb0]
      exact utf8_len_2 b0 (by omega) (by omega) (by omega)
  | [b0, b1, b2], h =>
    simp only [isShortestFormUtf8, Bool.and_eq_true, Bool.or_eq_true, bne_iff_ne,
      decide_eq_true_eq] at h
    obtain ⟨⟨⟨⟨⟨⟨hb0l, hb0u⟩, hb1l⟩, hb1u⟩, hb2l⟩, hb2u⟩, hov⟩ := h
    have hb0 : 255 &&& b0 = b0 := by rw [and_255_eq]; omega
    have hb1 : 255 &&& b1 = b1 := by rw [and_255_eq]; omega
    have hlow : 2048 ≤ (b0 % 16) * 4096 + (b1 % 64) * 64 + b2 % 64 := by
      rcases hov with hne | hge <;> omega
    refine ⟨(b0 % 16) * 4096 + (b1 % 64) * 64 + b2 % 64, ?_, ?_, ?_⟩
    · show next_utf8_codepoint (b0 :: b1 :: b2 :: rest) =
        Except.ok ((b0 % 16) * 4096 + (b1 % 64) * 64 + b2 % 64, 3)
      unfold next_utf8_codepoint
      simp only [hb0, hb1]
      rw [utf8_len_3 b0 (by omega) (by omega) (by omega)]
      simp only []
      rw [show (((b0 <<< 12) &&& 65535) + ((b1 <<< 6) &&& 4095)) + (b2 &&& 63)
          = (b0 % 16) * 4096 + (b1 % 64) * 64 + b2 % 64 from by
        rw [Nat.shiftLeft_eq, Nat.shiftLeft_eq, and_65535_eq, and_4095_eq, and_63_eq]; omega]
    · unfold append_codepoint_as_utf8
      rw [if_neg (by omega : ¬ ((b0 % 16) * 4096 + (b1 % 64) * 64 + b2 % 64 < 128))]
      rw [if_neg (by omega : ¬ ((b0 % 16) * 4096 + (b1 % 64) * 64 + b2 % 64 < 2048))]
      rw [if_pos (by omega : (b0 % 16) * 4096 + (b1 % 64) * 64 + b2 % 64 < 65536)]
      rw [show ((b0 % 16) * 4096 + (b1 % 64) * 64 + b2 % 64) >>> 12 = b0 % 16 from by
        rw [shiftR12_eq]; omega]
      rw [show ((b0 % 16) * 4096 + (b1 % 64) * 64 + b2 % 64) >>> 6
          = (b0 % 16) * 64 + b1 % 64 from by rw [shiftR6_eq]; omega]
      rw [show ((b0 % 16) * 64 + b1 % 64) &&& 63 = b1 % 64 from by rw [and_63_eq]; omega]
      rw [show ((b0 % 16) * 4096 + (b1 % 64) * 64 + b2 % 64) &&& 63 = b2 % 64 from by
        rw [and_63_eq]; omega]
      rw [or_224_eq (b0 % 16) (by omega), or_128_eq (b1 % 64) (by omega),
          or_128_eq (b2 % 64) (by omega)]
      rw [show (b0 % 16 + 224) % 256 = b0 from by omega]
      rw [show (b1 % 64 + 128) % 256 = b1 from by omega]
      rw [show (b2 % 64 + 128) % 256 = b2 from by omega]
    · show utf8_sequence_length (255 &&& b0) = 3
      rw [hb0]
      exact utf8_len_3 b0 (by omega) (by omega) (by omega)
  | [b0, b1, b2, b3], h =>
    simp only [isShortestFormUtf8, Bool.and_eq_true, Bool.or_eq_true, bne_iff_ne,
      decide_eq_true_eq] at h
    obtain ⟨⟨⟨⟨⟨⟨⟨⟨⟨hb0l, hb0u⟩, hb1l⟩, hb1u⟩, hb2l⟩, hb2u⟩, hb3l⟩, hb3u⟩, hov1⟩, hov2⟩ := h
    have hb0 : 255 &&& b0 = b0 := by rw [and_255_eq]; omega
    have hb1 : 255 &&& b1 = b1 := by rw [and_255_eq]; omega
    have hb2 : 255 &&& b2 = b2 := by rw [and_255_eq]; omega
    have hlow : 65536 ≤ (b0 % 8) * 262144 + (b1 % 64) * 4096 + (b2 % 64) * 64 + b3 % 64 := by
      rcases hov1 with hne | hge <;> omega
    refine ⟨(b0 % 8) * 262144 + (b1 % 64) * 4096 + (b2 % 64) * 64 + b3 % 64, ?_, ?_, ?_⟩
    · show next_utf8_codepoint (b0 :: b1 :: b2 :: b3 :: rest) =
        Except.ok ((b0 % 8) * 262144 + (b1 % 64) * 4096 + (b2 % 64) * 64 + b3 % 64, 4)
      unfold next_utf8_codepoint
      simp only [hb0, hb1, hb2]
      rw [utf8_len_4 b0 (by omega) (by omega) (by omega)]
      simp only []
      rw [show ((((b0 <<< 18) &&& 2097151) + ((b1 <<< 12) &&& 262143))
            + ((b2 <<< 6) &&& 4095)) + (b3 &&& 63)
          = (b0 % 8) * 262144 + (b1 % 64) * 4096 + (b2 % 64) * 64 + b3 % 64 from by
        rw [Nat.shiftLeft_eq, Nat.shiftLeft_eq, Nat.shiftLeft_eq, and_2097151_eq,
            and_262143_eq, and_4095_eq, and_63_eq]
        omega]
    · unfold append_codepoint_as_utf8
      rw [if_neg (by omega :
        ¬ ((b0 % 8) * 262144 + (b1 % 64) * 4096 + (b2 % 64) * 64 + b3 % 64 < 128))]
      rw [if_neg (by omega :
        ¬ ((b0 % 8) * 262144 + (b1 % 64) * 4096 + (b2 % 64) * 64 + b3 % 64 < 2048))]
      rw [if_neg (by omega :
        ¬ ((b0 % 8) * 262144 + (b1 % 64) * 4096 + (b2 % 64) * 64 + b3 % 64 < 65536))]
      rw [show ((b0 % 8) * 262144 + (b1 % 64) * 4096 + (b2 % 64) * 64 + b3 % 64) >>> 18
          = b0 % 8 from by rw [shiftR18_eq]; omega]
      rw [show ((b0 % 8) * 262144 + (b1 % 64) * 4096 + (b2 % 64) * 64 + b3 % 64) >>> 12
          = (b0 % 8) * 64 + b1 % 64 from by rw [shiftR12_eq]; omega]
      rw [show ((b0 % 8) * 262144 + (b1 % 64) * 4096 + (b2 % 64) * 64 + b3 % 64) >>> 6
          = (b0 % 8) * 4096 + (b1 % 64) * 64 + b2 % 64 from by rw [shiftR6_eq]; omega]
      rw [show ((b0 % 8) * 64 + b1 % 64) &&& 63 = b1 % 64 from by rw [and_63_eq]; omega]
      rw [show ((b0 % 8) * 4096 + (b1 % 64) * 64 + b2 % 64) &&& 63 = b2 % 64 from by
        rw [and_63_eq]; omega]
      rw [show ((b0 % 8) * 262144 + (b1 % 64) * 4096 + (b2 % 64) * 64 + b3 % 64) &&& 63
          = b3 % 64 from by rw [and_63_eq]; omega]
      rw [or_240_eq (b0 % 8) (by omega), or_128_eq (b1 % 64) (by omega),
          or_128_eq (b2 % 64) (by omega), or_128_eq (b3 % 64) (by omega)]
      rw [show (b0 % 8 + 240) % 256 = b0 from by omega]
      rw [show (b1 % 64 + 128) % 256 = b1 from by omega]
      rw [show (b2 % 64 + 128) % 256 = b2 from by omega]
      rw [show (b3 % 64 + 128) % 256 = b3 from by omega]
    · show utf8_sequence_length (255 &&& b0) = 4
      rw [hb0]
      exact utf8_len_4 b0 (by omega) (by omega) (by omega)

/-- C10 witness: the euro sign, a 3-byte sequence: decoding [0xe2, 0x82, 0xac]
consumes 3 bytes yielding U+20AC, whose encoding reproduces the bytes. -/
theorem C10_utf8_roundtrip_witness :
    isShortestFormUtf8 [226, 130, 172] = true ∧
    next_utf8_codepoint ([226, 130, 172] ++ []) = Except.ok (8364, 3) ∧
    append_codepoint_as_utf8 8364 = [226, 130, 172] := by
  obtain ⟨cp, h1, h2, h3⟩ := C10_utf8_roundtrip [226, 130, 172] [] (by decide)
  have e : Except.ok (cp, ([226, 130, 172] : List Nat).length) =
      (Except.ok ((8364 : Nat), (3 : Nat)) : Except String (Nat × Nat)) :=
    h1.symm.trans (by decide)
  simp only [Except.ok.injEq, Prod.mk.injEq] at e
  obtain ⟨hcp, -⟩ := e
  subst hcp
  exact ⟨by decide, by simpa using h1, h2⟩

end Osmium
